import Mathlib

/-!
Verification of the veda-bot-rag core against its specification.

The Python sources under `src/` are shallowly embedded below:
pure string manipulation is translated to functions on `List Char` /
`String`, dictionaries and sets of natural-number chunk indices are
modelled as lists; where a conclusion could depend on the iteration
order of a Python set (the BM25 tie order) that order is an explicit
enumeration oracle, and elsewhere a canonical enumeration is used and
the conclusions do not depend on it. Floating point arithmetic whose
operands are small integer counts is modelled exactly over `ℚ`, and
every external call (the LLM, the sentence-transformers embedding
model, numpy's cosine, `math.log`) is an oracle parameter of the
embedding.
-/

namespace VedaBot

/-! ## Basic string utilities (Python `in`, `lower`, `strip`, `split`) -/

/-- Character-list translation of `s.lower()` (ASCII data throughout the
pipeline). -/
def lowerChars (s : String) : List Char :=
  s.data.map Char.toLower

/-- Does the second list start with the first? (Helper for substring search.) -/
def startsWithB : List Char → List Char → Bool
  | [], _ => true
  | _ :: _, [] => false
  | a :: as, b :: bs => a == b && startsWithB as bs

/-- Python's substring test `pat in hay` on character lists. -/
def hasSubB (pat : List Char) : List Char → Bool
  | [] => startsWithB pat []
  | c :: rest => startsWithB pat (c :: rest) || hasSubB pat rest

/-- `pat in text` for a pattern given as a string literal. -/
def containsTok (text : List Char) (pat : String) : Bool :=
  hasSubB pat.data text

/-- `any(p in text for p in pats)`. -/
def containsAnyTok (text : List Char) (pats : List String) : Bool :=
  pats.any (fun p => containsTok text p)

/-- Python whitespace class `\s` (ASCII members). -/
def isPyWs (c : Char) : Bool :=
  c == ' ' || c == '\t' || c == '\n' || c == '\x0d' || c == '\x0b' || c == '\x0c'

/-- `str.strip()`: drop leading and trailing whitespace. -/
def stripChars (l : List Char) : List Char :=
  ((l.dropWhile isPyWs).reverse.dropWhile isPyWs).reverse

/-- `str.strip()` at the string level. -/
def stripStr (s : String) : String :=
  String.mk (stripChars s.data)

/-- Accumulator pass for `splitRuns`: `cur` holds the characters of the
run in progress, in reverse. -/
def splitRunsAux (p : Char → Bool) : List Char → List Char → List String
  | cur, [] => if cur = [] then [] else [String.mk cur.reverse]
  | cur, c :: cs =>
    if p c then splitRunsAux p (c :: cur) cs
    else if cur = [] then splitRunsAux p [] cs
    else String.mk cur.reverse :: splitRunsAux p [] cs

/-- Maximal runs of characters satisfying `p`, as strings: the common core
of `re.findall(r"[a-z0-9]+", ...)` and `str.split()`. -/
def splitRuns (p : Char → Bool) (l : List Char) : List String :=
  splitRunsAux p [] l

/-- Token characters of `TOKEN_PATTERN = re.compile(r"[a-z0-9]+")`. -/
def isTokenChar (c : Char) : Bool :=
  ('a' ≤ c && c ≤ 'z') || c.isDigit

/-- `_tokenize` of `hybrid_fusion_retriever.py` (and the token extraction
underlying `_normalize_question`): lowercase, then take the maximal
`[a-z0-9]` runs. -/
def tokenize (s : String) : List String :=
  splitRuns isTokenChar (lowerChars s)

/-- `str.split()`: maximal runs of non-whitespace characters. -/
def wsSplit (s : String) : List String :=
  splitRuns (fun c => !isPyWs c) s.data

/-- `" ".join(parts)`. -/
def joinWith (sep : String) : List String → String
  | [] => ""
  | [s] => s
  | s :: rest => s ++ sep ++ joinWith sep rest

/-! ## Age extraction: `re.search(r"\b(\d{1,3})\b", text)`

A match of this regex is the first maximal digit run of the text that is
delimited on both sides by a non-word character (word characters being
`[a-zA-Z0-9_]`) or a text boundary and has length at most 3; longer runs
and runs adjacent to letters admit no internal word boundary and are
skipped entirely. -/

/-- Python `\w` (ASCII). -/
def isWordChar (c : Char) : Bool :=
  c.isAlphanum || c == '_'

/-- Split a maximal leading digit run off a character list. -/
def takeDigitRun : List Char → List Char × List Char
  | [] => ([], [])
  | c :: cs =>
    if c.isDigit then
      let p := takeDigitRun cs
      (c :: p.1, p.2)
    else
      ([], c :: cs)

/-- Numeric value of a digit run. -/
def digitsVal (ds : List Char) : Nat :=
  ds.foldl (fun a c => 10 * a + (c.toNat - '0'.toNat)) 0

/-- Boundary after a run: the following character must not be a word
character (or the text ends). -/
def afterBoundaryOk : List Char → Bool
  | [] => true
  | d :: _ => !isWordChar d

/-- Scan for the first `\b\d{1,3}\b` match; `prevWord` records whether the
previous character was a word character (no boundary before a digit then).
The recursion is on a fuel bound: every step consumes at least one
character, so a fuel exceeding the text length never runs out. -/
def scanAgeFuel : Nat → Bool → List Char → Option Nat
  | 0, _, _ => none
  | _ + 1, _, [] => none
  | fuel + 1, prevWord, c :: cs =>
    if c.isDigit && !prevWord then
      let run := c :: (takeDigitRun cs).1
      let rest := (takeDigitRun cs).2
      if run.length ≤ 3 && afterBoundaryOk rest then
        some (digitsVal run)
      else
        scanAgeFuel fuel true rest
    else
      scanAgeFuel fuel (isWordChar c) cs

/-- First `\b(\d{1,3})\b` match of a character list. -/
def firstAgeMatch (l : List Char) : Option Nat :=
  scanAgeFuel (l.length + 1) false l

/-- `RAGPipeline._extract_age`: the first matched 1-3 digit token, kept
only when `0 < age < 120`. -/
def extractAgeOpt (history : String) : Option Nat :=
  match firstAgeMatch history.data with
  | some n => if 0 < n ∧ n < 120 then some n else none
  | none => none

/-! ## Patient profile (`memory.py`) -/

/-- Gender vocabulary checked first by `_update_patient_profile`. -/
def femaleTerms : List String := ["female", "woman", "girl"]

/-- Gender vocabulary checked second (an `elif`). -/
def maleTerms : List String := ["male", "man", "boy"]

structure PatientProfile where
  age : Option Nat
  gender : Option String
deriving DecidableEq

/-- `ConversationMemory._update_patient_profile`: substring gender match on
the lowercased turn (female terms first), and age from the first
`\b\d{1,3}\b` token when it lies strictly between 0 and 120; otherwise
both fields keep their previous values. -/
def updatePatientProfile (p : PatientProfile) (content : String) : PatientProfile :=
  let text := lowerChars content
  let gender :=
    if containsAnyTok text femaleTerms then some "female"
    else if containsAnyTok text maleTerms then some "male"
    else p.gender
  let age :=
    match firstAgeMatch text with
    | some n => if 0 < n ∧ n < 120 then some n else p.age
    | none => p.age
  ⟨age, gender⟩

/-! ## Pre-diagnosis red-flag scan (`rag_pipeline.py`) -/

/-- The keyword groups of `_detect_pre_diagnosis_red_flags` (insertion
order of the Python dict). -/
def keywordGroups : List (String × List String) :=
  [("severe_or_worst_pain", ["severe pain", "worst pain", "excruciating", "unbearable"]),
   ("sudden_onset", ["sudden", "abrupt", "all of a sudden"]),
   ("functional_loss", ["cannot walk", "can\x27t walk", "weakness", "numbness", "fainting", "collapse"]),
   ("systemic_symptoms", ["high fever", "persistent fever", "weight loss", "night sweats", "vomiting blood", "blood in stool"])]

/-- `RAGPipeline._detect_pre_diagnosis_red_flags`: keyword groups whose
terms occur in the lowercased history, plus the over-50-with-new-joint-pain
rule (the extracted age is already positive, so Python's truthiness test on
it is just `≠ None`). -/
def detectPreDiagnosisRedFlags (history : String) : List String :=
  let text := lowerChars history
  let base := (keywordGroups.filter (fun g => g.2.any (fun k => containsTok text k))).map Prod.fst
  let ageFlag :=
    match extractAgeOpt history with
    | some a =>
        50 < a && (containsTok text "new joint pain" ||
                   (containsTok text "joint pain" && containsTok text "new"))
    | none => false
  if ageFlag then base ++ ["age_over_50_new_joint_pain"] else base

/-! ## Differential report and self-check (`generator.py`)

The LLM's raw JSON reply is the oracle: a `RawDifferential` /
`RawSelfCheck` is the parse result (`none` at the top level when
`_safe_json_load` falls back to the hard-coded fallback dict; `none` in a
field when the key is missing or fails the `float(...)` / shape check). -/

/-- Python's binary `min` on floats, as the computable rational `ite`. -/
def qmin (a b : ℚ) : ℚ := if a ≤ b then a else b

/-- Python's binary `max` on floats, as the computable rational `ite`. -/
def qmax (a b : ℚ) : ℚ := if b ≤ a then a else b

theorem qmin_eq_min (a b : ℚ) : qmin a b = min a b := by
  unfold qmin
  rw [min_def]

theorem qmax_eq_max (a b : ℚ) : qmax a b = max a b := by
  unfold qmax
  rcases le_total a b with h | h
  · rw [max_eq_right h]
    split_ifs with h2
    · exact le_antisymm h h2
    · rfl
  · rw [max_eq_left h]
    split_ifs with h2
    · rfl
    · exact absurd h h2

structure CandidateCondition where
  name : String
  confidence : ℚ
deriving DecidableEq

structure RawDifferential where
  possibleConditions : Option (List CandidateCondition)
  mostLikelyConfidence : Option ℚ
  uncertaintyLevel : Option String
  redFlagsPresent : Option (List String)

structure Differential where
  possibleConditions : List CandidateCondition
  mostLikelyConfidence : ℚ
  uncertaintyLevel : String
  redFlagsPresent : List String
deriving DecidableEq

/-- The hard-coded fallback candidate list of
`generate_differential_diagnosis`. -/
def fallbackConditions : List CandidateCondition :=
  [⟨"Undifferentiated headache pattern", 34/100⟩,
   ⟨"Pitta-aggravated headache pattern", 33/100⟩,
   ⟨"Tension-type pattern", 33/100⟩]

/-- The full fallback report used when the model reply is unparseable. -/
def fallbackRawDifferential : RawDifferential :=
  ⟨some fallbackConditions, some (34/100), some "high", some []⟩

/-- The normalization block at the end of
`generate_differential_diagnosis`: substitute the fallback candidates for
a missing/non-list field, pad to 3 candidates, coerce and clamp the
most-likely confidence, default the uncertainty level, default red flags. -/
def normalizeParsed (r : RawDifferential) : Differential :=
  let conds0 := r.possibleConditions.getD fallbackConditions
  let conds := if conds0.length < 3 then (conds0 ++ fallbackConditions).take 3 else conds0
  let mlc := qmax 0 (qmin 1 (r.mostLikelyConfidence.getD 0))
  let unc :=
    match r.uncertaintyLevel with
    | some u => if u = "low" ∨ u = "moderate" ∨ u = "high" then u else "moderate"
    | none => "moderate"
  ⟨conds, mlc, unc, r.redFlagsPresent.getD []⟩

/-- `generate_differential_diagnosis` after the model call: unparseable
output is replaced by the fallback dict, then normalized. -/
def normalizeDifferential (raw : Option RawDifferential) : Differential :=
  normalizeParsed (raw.getD fallbackRawDifferential)

structure RawSelfCheck where
  overconfident : Option Bool
  missingDifferentials : Option Bool
  requiresMedicalEscalation : Option Bool
  treatmentAllowed : Option Bool
  adjustedConfidenceCap : Option ℚ

structure SelfCheck where
  overconfident : Bool
  missingDifferentials : Bool
  requiresMedicalEscalation : Bool
  treatmentAllowed : Bool
  adjustedConfidenceCap : ℚ
deriving DecidableEq

/-- The fallback dict of `self_check_differential`. -/
def fallbackRawSelfCheck : RawSelfCheck :=
  ⟨some false, some false, some false, some true, some 1⟩

/-- `self_check_differential` after the model call: bool-coerce the four
flags with their fallback defaults and clamp the confidence cap to [0,1]. -/
def normalizeSelfCheck (raw : Option RawSelfCheck) : SelfCheck :=
  let r := raw.getD fallbackRawSelfCheck
  ⟨r.overconfident.getD false,
   r.missingDifferentials.getD false,
   r.requiresMedicalEscalation.getD false,
   r.treatmentAllowed.getD true,
   qmax 0 (qmin 1 (r.adjustedConfidenceCap.getD 1))⟩

/-- Lines 143-149 of `rag_pipeline.py`: cap the most-likely confidence by
the self-check's `adjusted_confidence_cap` and, when the self-check
requires escalation, union `"auditor_escalation"` into the red flags
(`list(set(...))`; the Python set order is arbitrary, only membership and
emptiness are ever used downstream, so it is modelled by `dedup`). -/
def applySelfCheck (d : Differential) (sc : SelfCheck) : Differential :=
  let d1 := { d with mostLikelyConfidence := qmin d.mostLikelyConfidence sc.adjustedConfidenceCap }
  if sc.requiresMedicalEscalation then
    { d1 with redFlagsPresent := (d1.redFlagsPresent ++ ["auditor_escalation"]).dedup }
  else d1

/-! ## Conversation memory (`memory.py`) -/

structure HistTurn where
  role : String
  content : String
deriving DecidableEq

structure Memory where
  history : List HistTurn
  maxTurns : Nat
  userTurnCount : Nat
  diagnosisComplete : Bool
  remediesProvided : Bool
  waitingRemediesConsent : Bool
  waitingMoreInfoConsent : Bool
  waitingTreatmentRiskProfile : Bool
  treatmentRiskProfileCollected : Bool
  patientAge : Option Nat
  patientGender : Option String
deriving DecidableEq

/-- `ConversationMemory.__init__` with the default `max_turns=50`. -/
def Memory.init : Memory :=
  ⟨[], 50, 0, false, false, false, false, false, false, none, none⟩

/-- `ConversationMemory.add_turn`: user turns bump the counter and update
the profile; the history is appended and trimmed from the front past
`max_turns`. -/
def addTurn (mem : Memory) (role content : String) : Memory :=
  let mem :=
    if role = "user" then
      let p := updatePatientProfile ⟨mem.patientAge, mem.patientGender⟩ content
      { mem with userTurnCount := mem.userTurnCount + 1, patientAge := p.age, patientGender := p.gender }
    else mem
  let h := mem.history ++ [⟨role, content⟩]
  { mem with history := if mem.maxTurns < h.length then h.drop 1 else h }

/-- `role.upper()` for the ASCII role names. -/
def toUpperStr (s : String) : String :=
  String.mk (s.data.map Char.toUpper)

/-- `ConversationMemory.get_formatted_history`: optional
`PATIENT_PROFILE:` line, one `ROLE: content` line per turn, stripped. -/
def getFormattedHistory (mem : Memory) : String :=
  let base :=
    if mem.patientAge.isSome || mem.patientGender.isSome then
      "PATIENT_PROFILE: age=" ++
        (match mem.patientAge with | some a => toString a | none => "unknown") ++
        ", gender=" ++ mem.patientGender.getD "unknown" ++ "\n"
    else ""
  stripStr (mem.history.foldl (fun acc t => acc ++ toUpperStr t.role ++ ": " ++ t.content ++ "\n") base)

/-! ## Orchestrator (`rag_pipeline.py`) -/

/-- The generation mode the orchestrator dispatches to for a turn
(`noInfo` is the early `"No relevant information found."` return,
`finalAnswer` the `"final"` mode). -/
inductive Mode where
  | noInfo
  | gathering
  | escalation
  | uncertain
  | uncertainFinal
  | diagnosis
  | remedies
  | riskGateQuestion
  | farewell
  | finalAnswer
deriving DecidableEq

/-- The configuration values the orchestrator reads via
`getattr(config, ..., default)`; `config.py` defines none of them, so the
deployed values are the defaults. -/
structure PipelineConfig where
  minGathering : Nat
  extraGathering : Nat
  confidenceThreshold : ℚ
  enableTreatmentRiskGate : Bool

/-- The `getattr` defaults: 15, 5, 0.70, True. -/
def defaultConfig : PipelineConfig :=
  ⟨15, 5, mkRat 7 10, true⟩

/-- `RAGPipeline._is_affirmative`. -/
def isAffirmative (text : String) : Bool :=
  containsAnyTok (lowerChars text) ["yes", "yeah", "ok", "sure", "please", "remedies"]

/-- `RAGPipeline._run_differential_decision`: the pre-diagnosis red-flag
scan runs first and short-circuits to escalation; otherwise the generated
differential is capped by the self-check and routed to escalation /
uncertain / diagnosis. Only the control flow and memory mutations are
modelled; the streamed LLM text is outside the embedding. -/
def runDifferentialDecision (cfg : PipelineConfig) (mem : Memory) (history : String)
    (rawD : Option RawDifferential) (rawSC : Option RawSelfCheck)
    (finalAttempt : Bool) : Mode × Memory :=
  if detectPreDiagnosisRedFlags history ≠ [] then (.escalation, mem)
  else
    let sc := normalizeSelfCheck rawSC
    let d := applySelfCheck (normalizeDifferential rawD) sc
    let lowConfidence := d.mostLikelyConfidence < cfg.confidenceThreshold
    let highUncertainty := d.uncertaintyLevel = "high"
    let escalationRequired := d.redFlagsPresent ≠ [] ∨ sc.requiresMedicalEscalation = true
    if escalationRequired then (.escalation, mem)
    else if lowConfidence ∨ highUncertainty ∨ sc.overconfident = true ∨ sc.missingDifferentials = true then
      if finalAttempt then (.uncertainFinal, { mem with diagnosisComplete := true })
      else (.uncertain, mem)
    else (.diagnosis, { mem with waitingRemediesConsent := true })

/-- Per-turn oracle inputs of `RAGPipeline.run`: the user's text, whether
reranked retrieval produced any chunk, and the raw LLM replies consumed by
a differential attempt. -/
structure TurnOracle where
  question : String
  chunksNonempty : Bool
  rawDifferential : Option RawDifferential
  rawSelfCheck : Option RawSelfCheck

/-- `RAGPipeline.run`: dispatch on memory state and the user turn count.
The returned `Bool` records whether the turn evaluated the pre-diagnosis
red-flag scan (which happens exactly when `_run_differential_decision` is
entered, at the top of which the scan runs unconditionally). -/
def runTurn (cfg : PipelineConfig) (mem : Memory) (o : TurnOracle) : Mode × Memory × Bool :=
  if o.chunksNonempty = false then (.noInfo, mem, false)
  else if mem.waitingTreatmentRiskProfile then
    (.remedies,
     { mem with waitingTreatmentRiskProfile := false, treatmentRiskProfileCollected := true,
                diagnosisComplete := true }, false)
  else if mem.waitingRemediesConsent then
    if isAffirmative o.question then
      if cfg.enableTreatmentRiskGate ∧ mem.treatmentRiskProfileCollected = false then
        (.riskGateQuestion,
         { mem with waitingRemediesConsent := false, waitingTreatmentRiskProfile := true }, false)
      else
        (.remedies, { mem with waitingRemediesConsent := false, diagnosisComplete := true }, false)
    else
      (.farewell, { mem with waitingRemediesConsent := false, diagnosisComplete := true }, false)
  else if mem.diagnosisComplete then (.finalAnswer, mem, false)
  else if mem.userTurnCount < cfg.minGathering then (.gathering, mem, false)
  else if mem.userTurnCount = cfg.minGathering then
    ((runDifferentialDecision cfg mem (getFormattedHistory mem)
        o.rawDifferential o.rawSelfCheck false).1,
     (runDifferentialDecision cfg mem (getFormattedHistory mem)
        o.rawDifferential o.rawSelfCheck false).2, true)
  else if mem.userTurnCount < cfg.minGathering + cfg.extraGathering then (.gathering, mem, false)
  else
    ((runDifferentialDecision cfg mem (getFormattedHistory mem)
        o.rawDifferential o.rawSelfCheck true).1,
     (runDifferentialDecision cfg mem (getFormattedHistory mem)
        o.rawDifferential o.rawSelfCheck true).2, true)

/-- One iteration of the driver loop in `run_rag.py`: add the user turn,
run the pipeline, add the assistant turn (the assistant's streamed text is
an oracle input). Returns the new memory and whether the red-flag scan ran. -/
def sessionStep (cfg : PipelineConfig) (mem : Memory) (o : TurnOracle)
    (assistantReply : String) : Memory × Bool :=
  let mem1 := addTurn mem "user" o.question
  let r := runTurn cfg mem1 o
  (addTurn r.2.1 "assistant" assistantReply, r.2.2)

/-- Number of turns of a session on which the pre-diagnosis red-flag scan
was evaluated. -/
def sessionScanCount (cfg : PipelineConfig) : Memory → List (TurnOracle × String) → Nat
  | _, [] => 0
  | mem, (o, reply) :: rest =>
    let s := sessionStep cfg mem o reply
    (if s.2 then 1 else 0) + sessionScanCount cfg s.1 rest

/-! ## Hybrid fusion retrieval (`hybrid_fusion_retriever.py`) -/

/-- Rank lookup: `r` is the rank the head of the list would get. -/
def rankOfAux (d : Nat) : Nat → List Nat → Option Nat
  | _, [] => none
  | r, x :: xs => if x = d then some r else rankOfAux d (r + 1) xs

/-- 1-based rank of a chunk index in a result list: the position of its
first occurrence, exactly as the `dense_rank` / `bm25_rank` maps record it
(`enumerate(..., start=1)` with first-occurrence-wins for dense results;
the BM25 ids, keys of the score dict, are pairwise distinct). -/
def rankOf (ids : List Nat) (d : Nat) : Option Nat :=
  rankOfAux d 1 ids

/-- One modality's contribution `weight / (rrf_k + rank)` to the RRF
score; an absent rank contributes zero. -/
def rrfContrib (w rrfK : ℚ) (ids : List Nat) (d : Nat) : ℚ :=
  match rankOf ids d with
  | some r => w / (rrfK + r)
  | none => 0

/-- Descending order on fused `(chunk index, score)` pairs, the sort key
of `fused.sort(key=lambda x: x[1], reverse=True)`. -/
def scoreGe (a b : Nat × ℚ) : Prop := b.2 ≤ a.2

instance : DecidableRel scoreGe := fun a b => inferInstanceAs (Decidable (b.2 ≤ a.2))

instance : IsTotal (Nat × ℚ) scoreGe := ⟨fun a b => le_total b.2 a.2⟩

instance : IsTrans (Nat × ℚ) scoreGe := ⟨fun _ _ _ h1 h2 => le_trans h2 h1⟩

/-- `HybridFusionRetriever.retrieve` after the two candidate lists are in:
the candidate id set (the union of both rank maps' keys, a Python set of
ints, modelled as the deduplicated concatenation) is scored by weighted
RRF, sorted by score descending, and truncated to `k`. Each result pair
carries the chunk's `metadata_index` and `fusion_score`. -/
def hybridFuse (denseIds bm25Ids : List Nat) (dw bw rrfK : ℚ) (k : Nat) : List (Nat × ℚ) :=
  let candidates := (denseIds ++ bm25Ids).dedup
  if candidates = [] then []
  else
    let fused := candidates.map (fun d => (d, rrfContrib dw rrfK denseIds d + rrfContrib bw rrfK bm25Ids d))
    (fused.insertionSort scoreGe).take k

/-! ## BM25 scoring (`hybrid_fusion_retriever.py`) -/

structure Bm25Doc where
  text : String
  source : String
deriving Inhabited, DecidableEq

/-- Per-document term frequency (`Counter(tokens)`). -/
def docTf (d : Bm25Doc) (t : String) : Nat :=
  ((tokenize d.text).filter (fun x => x = t)).length

/-- Per-document token count. -/
def docLenOf (d : Bm25Doc) : Nat :=
  (tokenize d.text).length

/-- BM25 `k1`. -/
def bmK1 : ℚ := 12/10

/-- BM25 `b`. -/
def bmB : ℚ := 3/4

/-- The `1e-9` guard added to the average document length. -/
def bmEps : ℚ := 1/1000000000

/-- `avg_doc_len`: mean token count, 0 for an empty corpus. -/
def avgDocLen (docs : List Bm25Doc) : ℚ :=
  if docs.length = 0 then 0 else ((docs.map docLenOf).sum : ℚ) / docs.length

/-- The inner scoring loop of `_bm25_top_indices` for one document. The
`idf` factor (`math.log(1 + (N - df + 0.5)/(df + 0.5))`, a transcendental
of integer counts) is an oracle parameter; everything else is exact. -/
def bm25DocScore (idf : String → ℚ) (docs : List Bm25Doc) (terms : List String) (i : Nat) : ℚ :=
  (terms.map (fun t =>
    if (docTf (docs.getD i default) t : ℚ) = 0 then 0
    else idf t * ((docTf (docs.getD i default) t : ℚ) * (bmK1 + 1)) /
      ((docTf (docs.getD i default) t : ℚ) +
        bmK1 * (1 - bmB + bmB * ((docLenOf (docs.getD i default) : ℚ) / (avgDocLen docs + bmEps)))))).sum

/-- The optional source filter of `_bm25_top_indices`. -/
def sourceOk (sf : Option String) (d : Bm25Doc) : Bool :=
  match sf with
  | none => true
  | some s => d.source = s

/-- The contents of the candidate id set of `_bm25_top_indices`: the
union of the postings of the query terms (i.e. the documents with a
positive frequency for some term), optionally source-filtered. This is
the set only; the order in which the Python `set` of ints is iterated is
implementation-defined (CPython hash-slot order) and is supplied
separately as an enumeration. -/
def bm25Candidates (docs : List Bm25Doc) (terms : List String) (sf : Option String) : List Nat :=
  (List.range docs.length).filter (fun i =>
    (terms.any fun t => 0 < docTf (docs.getD i default) t) && sourceOk sf (docs.getD i default))

/-- The score dict of `_bm25_top_indices` as an association list in
candidate-iteration order: documents of length 0 are skipped and only
positive scores are kept. -/
def bm25Scored (idf : String → ℚ) (docs : List Bm25Doc) (terms : List String)
    (cands : List Nat) : List (Nat × ℚ) :=
  cands.filterMap (fun i =>
    if docLenOf (docs.getD i default) = 0 then none
    else if 0 < bm25DocScore idf docs terms i then
      some (i, bm25DocScore idf docs terms i)
    else none)

/-- `HybridFusionRetriever._bm25_top_indices`: empty corpus or empty query
token list or empty candidate set short-circuit to `[]`; otherwise the
surviving scored candidates are returned by descending score, truncated
to `top_k`. `setEnum` is the iteration order of the candidate id set — a
CPython hash-table detail, modelled as an oracle that enumerates the
set's contents — and Python's stable `sorted(..., key=score,
reverse=True)` over that insertion order is `insertionSort` with the
non-strict score order, which preserves the relative order of
equal-score candidates. -/
def bm25TopIndices (idf : String → ℚ) (docs : List Bm25Doc) (query : String)
    (topK : Nat) (sourceFilter : Option String) (setEnum : List Nat → List Nat) : List Nat :=
  if docs.length = 0 then []
  else if tokenize query = [] then []
  else if setEnum (bm25Candidates docs (tokenize query) sourceFilter) = [] then []
  else
    ((((bm25Scored idf docs (tokenize query)
        (setEnum (bm25Candidates docs (tokenize query) sourceFilter))).insertionSort
          scoreGe).take topK).map Prod.fst)

/-! ## Safety engine (`dynamic_safety_engine.py`) -/

structure RiskMatch where
  riskType : String
  similarityScore : ℚ
deriving DecidableEq

structure SafetyResult where
  riskDetected : Bool
  matchedRisks : List RiskMatch
deriving DecidableEq

/-- `DynamicMedicalSafetyEngine.evaluate`: the user text's embedding and
the catalogue's risk vectors are opaque (`ι`), and `sim` is the numeric
cosine similarity computed by numpy — an oracle over those vectors. Every
concept scoring at least the threshold is collected; risk is detected iff
that list is non-empty. -/
def evaluateSafety {ι : Type} (sim : ι → ι → ℚ) (userVec : ι)
    (catalogue : List (String × ι)) (threshold : ℚ) : SafetyResult :=
  let triggered := (catalogue.filter (fun rv => threshold ≤ sim userVec rv.2)).map
    (fun rv => RiskMatch.mk rv.1 (sim userVec rv.2))
  if triggered ≠ [] then ⟨true, triggered⟩ else ⟨false, []⟩

/-- `RAGPipeline.check_safety`: with enhanced retrieval off it returns
`(True, None)` before ever touching the safety engine, whose `evaluate`
is passed in as a function so that not consulting it is visible. -/
def checkSafety (useEnhanced : Bool) (engineEvaluate : String → SafetyResult)
    (userInput : String) : Bool × Option SafetyResult :=
  if useEnhanced = false then (true, none)
  else
    let r := engineEvaluate userInput
    (!r.riskDetected, some r)

/-! ## Duplicate question detection (`generator.py`) -/

/-- `Generator._normalize_question`: lowercase, replace every character
outside `[a-z0-9\s]` by a space, collapse whitespace runs, strip. The
composite effect is the maximal `[a-z0-9]` runs of the lowercased text
joined by single spaces. -/
def normalizeQuestion (s : String) : String :=
  joinWith " " (tokenize s)

/-- `set(norm.split())`: the distinct whitespace-separated tokens of a
normalized question (only cardinalities of these sets are consumed, so a
first-occurrence `dedup` list models the Python set). -/
def tokenSet (s : String) : List String :=
  (wsSplit (normalizeQuestion s)).dedup

/-- `len(cand & prev) / max(1, len(cand | prev))` over deduplicated token
lists (`mkRat` is exactly that quotient). Both cardinalities are small
integers, so the float division is exact enough that the `>= 0.75`
comparison agrees with this rational. -/
def jaccardQ (ca pa : List String) : ℚ :=
  mkRat ((ca.filter (fun t => pa.contains t)).length)
        (max 1 (ca.length + (pa.filter (fun t => !ca.contains t)).length))

/-- `Generator._is_duplicate_question`: an empty normalized candidate is
never a duplicate; otherwise a previous question matches on normalized
equality or on token-overlap ratio ≥ 0.75 (previous questions with no
tokens are skipped). -/
def isDuplicateQuestion (candidate : String) (previousQuestions : List String) : Bool :=
  if normalizeQuestion candidate = "" ∨ tokenSet candidate = [] then false
  else
    previousQuestions.any (fun prev =>
      if normalizeQuestion candidate = normalizeQuestion prev then true
      else if tokenSet prev = [] then false
      else decide (mkRat 3 4 ≤ jaccardQ (tokenSet candidate) (tokenSet prev)))

/-- The fixed fallback question emitted after three failed attempts in
`Generator.generate` (gathering/uncertain modes). -/
def fallbackGatheringQuestion : String :=
  "Do you have reduced hearing, ringing, or fever along with the ear pain?"

/-- Candidate post-processing in the retry loop:
`" ".join(candidate.split())` (which also performs the earlier `strip()`),
then append `"?"` to a non-empty candidate lacking one. -/
def processCandidate (raw : String) : String :=
  let c := joinWith " " (wsSplit raw)
  if c ≠ "" ∧ !c.data.contains '?' then c ++ "?" else c

/-- The `for attempt in range(3)` loop: successive raw model outputs are
processed and the first non-empty non-duplicate is emitted; when the
attempts are exhausted the fixed fallback question is emitted. -/
def pickAux (previous : List String) : Nat → List String → String
  | 0, _ => fallbackGatheringQuestion
  | _ + 1, [] => fallbackGatheringQuestion
  | n + 1, o :: os =>
    if processCandidate o ≠ "" ∧ isDuplicateQuestion (processCandidate o) previous = false then
      processCandidate o
    else pickAux previous n os

/-- The question emitted by a gathering/uncertain turn, given the sequence
of raw model outputs (one per attempt). -/
def pickGatheringQuestion (outputs previous : List String) : String :=
  pickAux previous 3 outputs

/-! ## Theorems -/

/-- Claim C1: for every differential report and self-check report, the
final most-likely confidence committed by the orchestrator is exactly
`min(generated confidence, adjusted_confidence_cap)`; with a cap of 0.4
it never exceeds 0.4, and the self-check never increases the confidence. -/
theorem C1_confidence_cap (d : Differential) (sc : SelfCheck) :
    (applySelfCheck d sc).mostLikelyConfidence = min d.mostLikelyConfidence sc.adjustedConfidenceCap
    ∧ (sc.adjustedConfidenceCap = 2/5 → (applySelfCheck d sc).mostLikelyConfidence ≤ 2/5)
    ∧ (applySelfCheck d sc).mostLikelyConfidence ≤ d.mostLikelyConfidence := by
  have h : (applySelfCheck d sc).mostLikelyConfidence
      = min d.mostLikelyConfidence sc.adjustedConfidenceCap := by
    unfold applySelfCheck
    by_cases hr : sc.requiresMedicalEscalation <;> simp [hr, qmin_eq_min]
  refine ⟨h, ?_, ?_⟩
  · intro hc
    rw [h, hc]
    exact min_le_right _ _
  · rw [h]
    exact min_le_left _ _

/-- Witness for C1 at a concrete report and a self-check whose cap is 0.4. -/
theorem C1_confidence_cap_witness :
    (applySelfCheck ⟨fallbackConditions, 9/10, "low", []⟩
      ⟨false, false, false, true, 2/5⟩).mostLikelyConfidence ≤ 2/5 :=
  (C1_confidence_cap ⟨fallbackConditions, 9/10, "low", []⟩ ⟨false, false, false, true, 2/5⟩).2.1 rfl

/-- Claim C10: with `use_enhanced_retrieval = False`, `check_safety`
returns `(True, None)` for every input, independently of the safety
engine, which is never consulted. -/
theorem C10_safety_bypass (engine1 engine2 : String → SafetyResult) (input : String) :
    checkSafety false engine1 input = (true, none)
    ∧ checkSafety false engine1 input = checkSafety false engine2 input :=
  ⟨rfl, rfl⟩

/-- Claim C6: the safety engine detects risk iff some catalogued concept
scores at least the threshold, and the matched list contains exactly
those concepts paired with their similarity scores. -/
theorem C6_safety_evaluate {ι : Type} (sim : ι → ι → ℚ) (u : ι)
    (catalogue : List (String × ι)) (threshold : ℚ) :
    ((evaluateSafety sim u catalogue threshold).riskDetected = true ↔
      ∃ rv ∈ catalogue, threshold ≤ sim u rv.2)
    ∧ ∀ m : RiskMatch,
        (m ∈ (evaluateSafety sim u catalogue threshold).matchedRisks ↔
          ∃ rv ∈ catalogue, threshold ≤ sim u rv.2 ∧ RiskMatch.mk rv.1 (sim u rv.2) = m) := by
  have hm : (evaluateSafety sim u catalogue threshold).matchedRisks
      = (catalogue.filter (fun rv => threshold ≤ sim u rv.2)).map
        (fun rv => RiskMatch.mk rv.1 (sim u rv.2)) := by
    unfold evaluateSafety
    by_cases h : catalogue.filter (fun rv => threshold ≤ sim u rv.2) = [] <;>
      simp [h, List.map_eq_nil_iff]
  have hd : ((evaluateSafety sim u catalogue threshold).riskDetected = true) ↔
      catalogue.filter (fun rv => threshold ≤ sim u rv.2) ≠ [] := by
    unfold evaluateSafety
    by_cases h : catalogue.filter (fun rv => threshold ≤ sim u rv.2) = [] <;>
      simp [h, List.map_eq_nil_iff]
  refine ⟨?_, ?_⟩
  · rw [hd]
    constructor
    · intro hne
      obtain ⟨rv, hrv⟩ := List.exists_mem_of_ne_nil _ hne
      have hf := List.mem_filter.mp hrv
      exact ⟨rv, hf.1, by simpa using hf.2⟩
    · rintro ⟨rv, hrv, hle⟩ hnil
      have hmem : rv ∈ catalogue.filter (fun rv => threshold ≤ sim u rv.2) :=
        List.mem_filter.mpr ⟨hrv, by simpa using hle⟩
      rw [hnil] at hmem
      exact absurd hmem (List.not_mem_nil rv)
  · intro m
    rw [hm]
    constructor
    · intro hmem
      obtain ⟨rv, hrv, he⟩ := List.mem_map.mp hmem
      have hf := List.mem_filter.mp hrv
      exact ⟨rv, hf.1, by simpa using hf.2, he⟩
    · rintro ⟨rv, hrv, hle, he⟩
      exact List.mem_map.mpr ⟨rv, List.mem_filter.mpr ⟨hrv, by simpa using hle⟩, he⟩

/-- Counterexample to claim C5: a syntactically valid model reply whose
first candidate carries confidence 5 passes normalization unclamped, so
not every confidence in the produced report lies in [0,1]. -/
theorem C5_counterexample :
    ∃ c ∈ (normalizeDifferential (some ⟨some [⟨"Condition A", 5⟩, ⟨"Condition B", 1/10⟩,
        ⟨"Condition C", 1/10⟩], some (1/2), some "low", some []⟩)).possibleConditions,
      ¬(c.confidence ≤ 1) :=
  ⟨⟨"Condition A", 5⟩, by decide, by decide⟩

/-- Claim C5 as amended: every produced differential report (also from an
unparseable model reply) has at least 3 candidate conditions and a
most-likely confidence in [0,1]; the individual candidate confidences are
not clamped. -/
theorem C5_report_invariant (raw : Option RawDifferential) :
    3 ≤ (normalizeDifferential raw).possibleConditions.length
    ∧ 0 ≤ (normalizeDifferential raw).mostLikelyConfidence
    ∧ (normalizeDifferential raw).mostLikelyConfidence ≤ 1 := by
  simp only [normalizeDifferential, normalizeParsed]
  refine ⟨?_, ?_, ?_⟩
  · split_ifs with h
    · simp only [List.length_take, List.length_append]
      have h3 : fallbackConditions.length = 3 := by decide
      omega
    · omega
  · rw [qmax_eq_max]
    exact le_max_left _ _
  · rw [qmax_eq_max, qmin_eq_min]
    exact max_le (by norm_num) (min_le_left _ _)

/-- Claim C2: on a differential-decision turn (no pre-diagnosis keyword
flags), escalation wins whenever the generated report's red-flag list is
non-empty or the self-check requires escalation; otherwise a capped
confidence below the threshold, high uncertainty, or a self-check
overconfidence/missing-differentials flag routes to the uncertain branch;
otherwise the diagnosis branch is taken and waiting-for-remedy-consent is
set. -/
theorem C2_decision_branches (cfg : PipelineConfig) (mem : Memory) (history : String)
    (rawD : Option RawDifferential) (rawSC : Option RawSelfCheck) (finalAttempt : Bool)
    (hpre : detectPreDiagnosisRedFlags history = []) :
    let sc := normalizeSelfCheck rawSC
    let d0 := normalizeDifferential rawD
    let r := runDifferentialDecision cfg mem history rawD rawSC finalAttempt
    ((d0.redFlagsPresent ≠ [] ∨ sc.requiresMedicalEscalation = true) → r.1 = Mode.escalation)
    ∧ (d0.redFlagsPresent = [] → sc.requiresMedicalEscalation = false →
        (min d0.mostLikelyConfidence sc.adjustedConfidenceCap < cfg.confidenceThreshold ∨
          d0.uncertaintyLevel = "high" ∨ sc.overconfident = true ∨ sc.missingDifferentials = true) →
        (r.1 = Mode.uncertain ∨ r.1 = Mode.uncertainFinal))
    ∧ (d0.redFlagsPresent = [] → sc.requiresMedicalEscalation = false →
        ¬(min d0.mostLikelyConfidence sc.adjustedConfidenceCap < cfg.confidenceThreshold) →
        d0.uncertaintyLevel ≠ "high" → sc.overconfident = false → sc.missingDifferentials = false →
        (r.1 = Mode.diagnosis ∧ r.2.waitingRemediesConsent = true)) := by
  intro sc d0 r
  have hmlc : (applySelfCheck d0 sc).mostLikelyConfidence
      = min d0.mostLikelyConfidence sc.adjustedConfidenceCap := by
    unfold applySelfCheck
    by_cases hr : sc.requiresMedicalEscalation <;> simp [hr, qmin_eq_min]
  have hunc : (applySelfCheck d0 sc).uncertaintyLevel = d0.uncertaintyLevel := by
    unfold applySelfCheck
    by_cases hr : sc.requiresMedicalEscalation <;> simp [hr]
  refine ⟨?_, ?_, ?_⟩
  · intro hesc
    have hflag : (applySelfCheck d0 sc).redFlagsPresent ≠ [] ∨ sc.requiresMedicalEscalation = true := by
      rcases hesc with hne | hreq
      · left
        unfold applySelfCheck
        by_cases hr : sc.requiresMedicalEscalation
        · simp only [hr, if_pos]
          intro hnil
          rw [List.dedup_eq_nil] at hnil
          exact absurd (List.append_eq_nil.mp hnil).2 (by simp)
        · simpa [hr] using hne
      · exact Or.inr hreq
    show (runDifferentialDecision cfg mem history rawD rawSC finalAttempt).1 = Mode.escalation
    unfold runDifferentialDecision
    rw [if_neg (by simp [hpre])]
    simp only [if_pos hflag]
  · intro hflag hreq huncertain
    have hnoesc : ¬((applySelfCheck d0 sc).redFlagsPresent ≠ [] ∨ sc.requiresMedicalEscalation = true) := by
      push_neg
      refine ⟨?_, by simp [hreq]⟩
      unfold applySelfCheck
      simp [hreq, hflag]
    show (runDifferentialDecision cfg mem history rawD rawSC finalAttempt).1 = Mode.uncertain ∨
      (runDifferentialDecision cfg mem history rawD rawSC finalAttempt).1 = Mode.uncertainFinal
    unfold runDifferentialDecision
    rw [if_neg (by simp [hpre])]
    rw [if_neg hnoesc]
    rw [if_pos (by rw [hmlc, hunc] at *; exact huncertain)]
    by_cases hf : finalAttempt <;> simp [hf]
  · intro hflag hreq hconf huncl hover hmiss
    have hnoesc : ¬((applySelfCheck d0 sc).redFlagsPresent ≠ [] ∨ sc.requiresMedicalEscalation = true) := by
      push_neg
      refine ⟨?_, by simp [hreq]⟩
      unfold applySelfCheck
      simp [hreq, hflag]
    have hnounc : ¬((applySelfCheck d0 sc).mostLikelyConfidence < cfg.confidenceThreshold ∨
        (applySelfCheck d0 sc).uncertaintyLevel = "high" ∨
        sc.overconfident = true ∨ sc.missingDifferentials = true) := by
      push_neg
      exact ⟨by rw [hmlc]; exact not_lt.mp hconf, by rw [hunc]; exact huncl,
        by simp [hover], by simp [hmiss]⟩
    show (runDifferentialDecision cfg mem history rawD rawSC finalAttempt).1 = Mode.diagnosis ∧
      (runDifferentialDecision cfg mem history rawD rawSC finalAttempt).2.waitingRemediesConsent = true
    unfold runDifferentialDecision
    rw [if_neg (by simp [hpre])]
    rw [if_neg hnoesc]
    rw [if_neg hnounc]
    exact ⟨rfl, rfl⟩

/-- Witness for C2: a report with confidence 0.9, uncertainty "low" and no
red flags, with a benign self-check, yields the diagnosis branch with
waiting-for-remedy-consent set, at the default configuration. -/
theorem C2_decision_branches_witness :
    (runDifferentialDecision defaultConfig Memory.init ""
      (some ⟨some fallbackConditions, some (9/10), some "low", some []⟩)
      (some ⟨some false, some false, some false, some true, some 1⟩) false).1 = Mode.diagnosis
    ∧ (runDifferentialDecision defaultConfig Memory.init ""
      (some ⟨some fallbackConditions, some (9/10), some "low", some []⟩)
      (some ⟨some false, some false, some false, some true, some 1⟩) false).2.waitingRemediesConsent = true :=
  (C2_decision_branches defaultConfig Memory.init ""
      (some ⟨some fallbackConditions, some (9/10), some "low", some []⟩)
      (some ⟨some false, some false, some false, some true, some 1⟩) false
      (by decide)).2.2 rfl rfl
      (by show ¬(min (qmax 0 (qmin 1 ((9 : ℚ)/10))) (qmax 0 (qmin 1 1)) < mkRat 7 10)
          norm_num [qmin, qmax, min_def, Rat.mkRat_eq_div])
      (by decide) rfl rfl

/-- Claim C3: hybrid fusion returns at most `k` results, sorted by fused
score descending; each returned chunk's score is the weighted RRF sum of
its two rank contributions (an absent rank contributing zero); two empty
retrievals yield the empty list. -/
theorem C3_hybrid_fusion (denseIds bm25Ids : List Nat) (dw bw rrfK : ℚ) (k : Nat) :
    (hybridFuse denseIds bm25Ids dw bw rrfK k).length ≤ k
    ∧ List.Sorted scoreGe (hybridFuse denseIds bm25Ids dw bw rrfK k)
    ∧ (∀ p ∈ hybridFuse denseIds bm25Ids dw bw rrfK k,
        p.2 = rrfContrib dw rrfK denseIds p.1 + rrfContrib bw rrfK bm25Ids p.1)
    ∧ hybridFuse [] [] dw bw rrfK k = [] := by
  have hdef : hybridFuse denseIds bm25Ids dw bw rrfK k =
      if (denseIds ++ bm25Ids).dedup = [] then []
      else ((((denseIds ++ bm25Ids).dedup).map
        (fun d => (d, rrfContrib dw rrfK denseIds d + rrfContrib bw rrfK bm25Ids d))).insertionSort
          scoreGe).take k := rfl
  refine ⟨?_, ?_, ?_, rfl⟩
  · rw [hdef]
    split_ifs with h
    · simp
    · exact List.length_take_le _ _
  · rw [hdef]
    split_ifs with h
    · exact List.sorted_nil
    · exact List.Pairwise.sublist (List.take_sublist _ _)
        (List.sorted_insertionSort scoreGe _)
  · intro p hp
    rw [hdef] at hp
    split_ifs at hp with h
    · exact absurd hp (List.not_mem_nil p)
    · have h1 := (List.take_sublist _ _).subset hp
      have h2 := (List.mem_insertionSort _).mp h1
      obtain ⟨d, _, he⟩ := List.mem_map.mp h2
      subst he
      rfl

/-- Witness for C3 at a one-element dense retrieval: the returned score
of chunk 3 equals its RRF formula value. -/
theorem C3_hybrid_fusion_witness :
    ((3, (1 : ℚ)/61) : Nat × ℚ).2 = rrfContrib 1 60 [3] 3 + rrfContrib 1 60 [] 3 :=
  (C3_hybrid_fusion [3] [] 1 1 60 5).2.2.1 (3, (1 : ℚ)/61) (by
    have h : hybridFuse [3] [] 1 1 60 5 = [(3, (1 : ℚ)/61)] := by
      norm_num [hybridFuse, rrfContrib, rankOf, rankOfAux, List.dedup, List.pwFilter,
        List.insertionSort, List.orderedInsert]
    rw [h]
    exact List.mem_singleton.mpr rfl)

/-- Positivity of a single-term BM25 score: when the idf is positive and
the term occurs in the document, every factor of the score is positive. -/
theorem bm25DocScore_pos (idf : String → ℚ) (docs : List Bm25Doc) (t : String) (i : Nat)
    (hidf : 0 < idf t) (htf : 0 < docTf (docs.getD i default) t)
    (havg : (0 : ℚ) ≤ avgDocLen docs) :
    0 < bm25DocScore idf docs [t] i := by
  unfold bm25DocScore
  simp only [List.map_cons, List.map_nil, List.sum_cons, List.sum_nil, add_zero]
  have hf : (0 : ℚ) < (docTf (docs.getD i default) t : ℚ) := by exact_mod_cast htf
  rw [if_neg (ne_of_gt hf)]
  have heps : (0 : ℚ) < avgDocLen docs + bmEps := by
    have h1 : (0 : ℚ) < bmEps := by norm_num [bmEps]
    linarith
  have hX : (0 : ℚ) ≤ (docLenOf (docs.getD i default) : ℚ) / (avgDocLen docs + bmEps) :=
    div_nonneg (by exact_mod_cast Nat.zero_le _) (le_of_lt heps)
  have hpar : (0 : ℚ) < 1 - bmB + bmB *
      ((docLenOf (docs.getD i default) : ℚ) / (avgDocLen docs + bmEps)) := by
    have hb : (0 : ℚ) ≤ bmB := by norm_num [bmB]
    have hq : (1 : ℚ) - bmB = 1/4 := by norm_num [bmB]
    have := mul_nonneg hb hX
    linarith
  have hden : (0 : ℚ) < (docTf (docs.getD i default) t : ℚ) + bmK1 * (1 - bmB + bmB *
      ((docLenOf (docs.getD i default) : ℚ) / (avgDocLen docs + bmEps))) := by
    have hk : (0 : ℚ) < bmK1 := by norm_num [bmK1]
    have := mul_pos hk hpar
    linarith
  exact div_pos (mul_pos hidf (mul_pos hf (by norm_num [bmK1]))) hden

/-- A candidate with non-zero length and positive score contributes its
score pair to the head of the scored list. -/
theorem bm25Scored_cons_pos (idf : String → ℚ) (docs : List Bm25Doc) (terms : List String)
    (i : Nat) (rest : List Nat) (h0 : ¬docLenOf (docs.getD i default) = 0)
    (hs : 0 < bm25DocScore idf docs terms i) :
    bm25Scored idf docs terms (i :: rest)
      = (i, bm25DocScore idf docs terms i) :: bm25Scored idf docs terms rest := by
  unfold bm25Scored
  rw [List.filterMap_cons]
  rw [if_neg h0]
  rw [if_pos hs]

/-- The ten-chunk corpus of the C4 counterexample: chunks 2 and 9 carry
the same text (hence bit-identical scores for the query "fever"); no
other chunk contains the query term. -/
def c4Docs : List Bm25Doc :=
  [⟨"x", "a"⟩, ⟨"x", "a"⟩, ⟨"fever", "a"⟩, ⟨"x", "a"⟩, ⟨"x", "a"⟩,
   ⟨"x", "a"⟩, ⟨"x", "a"⟩, ⟨"x", "a"⟩, ⟨"x", "a"⟩, ⟨"fever", "a"⟩]

/-- Counterexample to claim C4: chunks 2 and 9 have identical text, so
identical positive BM25 scores, and the candidate id set {2, 9} is
iterated by CPython in hash-slot order — 9 (slot 9 mod 8 = 1) before 2
(slot 2) — modelled here by the reverse enumeration. The stable sort
keeps that order, so the result is [9, 2]: the tie is not broken by
ascending chunk index. -/
theorem C4_counterexample :
    bm25TopIndices (fun _ => 1) c4Docs "fever" 5 none List.reverse = [9, 2]
    ∧ bm25DocScore (fun _ => 1) c4Docs (tokenize "fever") 9 =
        bm25DocScore (fun _ => 1) c4Docs (tokenize "fever") 2
    ∧ ¬ List.Pairwise (fun i j =>
        bm25DocScore (fun _ => 1) c4Docs (tokenize "fever") j <
          bm25DocScore (fun _ => 1) c4Docs (tokenize "fever") i ∨
        (bm25DocScore (fun _ => 1) c4Docs (tokenize "fever") i =
          bm25DocScore (fun _ => 1) c4Docs (tokenize "fever") j ∧ i ≤ j))
        (bm25TopIndices (fun _ => 1) c4Docs "fever" 5 none List.reverse) := by
  have htok : tokenize "fever" = ["fever"] := by decide
  have havg : (0 : ℚ) ≤ avgDocLen c4Docs := by
    unfold avgDocLen
    rw [if_neg (by decide)]
    positivity
  have hpos9 : 0 < bm25DocScore (fun _ => 1) c4Docs ["fever"] 9 :=
    bm25DocScore_pos _ _ _ _ (by norm_num) (by decide) havg
  have hpos2 : 0 < bm25DocScore (fun _ => 1) c4Docs ["fever"] 2 :=
    bm25DocScore_pos _ _ _ _ (by norm_num) (by decide) havg
  have heq : bm25DocScore (fun _ => 1) c4Docs ["fever"] 9
      = bm25DocScore (fun _ => 1) c4Docs ["fever"] 2 := by
    unfold bm25DocScore
    rw [show c4Docs.getD 9 default = c4Docs.getD 2 default from by decide]
  have hout : bm25TopIndices (fun _ => 1) c4Docs "fever" 5 none List.reverse = [9, 2] := by
    unfold bm25TopIndices
    rw [htok]
    rw [show bm25Candidates c4Docs ["fever"] none = [2, 9] from by decide]
    rw [show List.reverse [2, 9] = [9, 2] from rfl]
    rw [if_neg (by decide)]
    rw [if_neg (by decide)]
    rw [if_neg (by decide)]
    rw [bm25Scored_cons_pos _ _ _ _ _ (by decide) hpos9]
    rw [bm25Scored_cons_pos _ _ _ _ _ (by decide) hpos2]
    rw [show bm25Scored (fun _ => 1) c4Docs ["fever"] [] = [] from rfl]
    rw [List.Sorted.insertionSort_eq (by
      rw [List.sorted_cons]
      refine ⟨?_, List.sorted_singleton _⟩
      intro b hb
      rw [List.mem_singleton] at hb
      subst hb
      exact heq.ge)]
    rfl
  refine ⟨hout, by rw [htok]; exact heq, ?_⟩
  rw [hout, htok]
  intro hp
  have h92 := (List.pairwise_cons.mp hp).1 2 (by simp)
  rcases h92 with hlt | ⟨-, hle⟩
  · rw [heq] at hlt
    exact absurd hlt (lt_irrefl _)
  · exact absurd hle (by norm_num)

/-- Claim C4 as amended: BM25 top-N keeps only candidates with positive
score, orders them by descending score — equal-score candidates staying
in the iteration order of the candidate id set, which need not be the
ascending chunk index — returns at most `top_k` of them, and returns the
empty list for an empty corpus, an empty query, or a candidate set with
no term overlap; this holds for every enumeration of the candidate set. -/
theorem C4_bm25 (idf : String → ℚ) (docs : List Bm25Doc) (query : String)
    (topK : Nat) (sf : Option String) (setEnum : List Nat → List Nat)
    (henum : List.Perm (setEnum (bm25Candidates docs (tokenize query) sf))
      (bm25Candidates docs (tokenize query) sf)) :
    (∀ i ∈ bm25TopIndices idf docs query topK sf setEnum,
      0 < bm25DocScore idf docs (tokenize query) i)
    ∧ List.Pairwise (fun i j =>
        bm25DocScore idf docs (tokenize query) j ≤ bm25DocScore idf docs (tokenize query) i)
        (bm25TopIndices idf docs query topK sf setEnum)
    ∧ (bm25TopIndices idf docs query topK sf setEnum).length ≤ topK
    ∧ (tokenize query = [] → bm25TopIndices idf docs query topK sf setEnum = [])
    ∧ (docs = [] → bm25TopIndices idf docs query topK sf setEnum = [])
    ∧ ((∀ i, ∀ t ∈ tokenize query, docTf (docs.getD i default) t = 0) →
        bm25TopIndices idf docs query topK sf setEnum = []) := by
  have hempty : docs.length = 0 ∨ tokenize query = [] ∨
      setEnum (bm25Candidates docs (tokenize query) sf) = [] →
      bm25TopIndices idf docs query topK sf setEnum = [] := by
    intro hc
    unfold bm25TopIndices
    rcases hc with h | h | h
    · rw [if_pos h]
    · simp [h]
    · simp [h]
  have hglue : bm25Candidates docs (tokenize query) sf = [] →
      setEnum (bm25Candidates docs (tokenize query) sf) = [] := by
    intro h
    rw [h] at henum ⊢
    exact henum.eq_nil
  have hnotoverlap : (∀ i, ∀ t ∈ tokenize query, docTf (docs.getD i default) t = 0) →
      bm25Candidates docs (tokenize query) sf = [] := by
    intro h
    unfold bm25Candidates
    rw [List.filter_eq_nil_iff]
    intro i _
    simp only [Bool.and_eq_true, List.any_eq_true]
    rintro ⟨⟨t, ht, hpos⟩, -⟩
    rw [h i t ht] at hpos
    exact absurd hpos (by simp)
  by_cases hdocs : docs.length = 0
  · rw [hempty (Or.inl hdocs)]
    exact ⟨by simp, by simp, by simp, fun _ => rfl, fun _ => rfl, fun _ => rfl⟩
  · by_cases hterms : tokenize query = []
    · rw [hempty (Or.inr (Or.inl hterms))]
      exact ⟨by simp, by simp, by simp, fun _ => rfl, fun _ => rfl, fun _ => rfl⟩
    · have hdocsne : docs ≠ [] := fun h => hdocs (by simp [h])
      by_cases hcands : setEnum (bm25Candidates docs (tokenize query) sf) = []
      · rw [hempty (Or.inr (Or.inr hcands))]
        exact ⟨by simp, by simp, by simp, fun _ => rfl, fun _ => rfl, fun _ => rfl⟩
      · have hres : bm25TopIndices idf docs query topK sf setEnum =
            ((((bm25Scored idf docs (tokenize query)
                (setEnum (bm25Candidates docs (tokenize query) sf))).insertionSort
                  scoreGe).take topK).map Prod.fst) := by
          unfold bm25TopIndices
          rw [if_neg hdocs]
          rw [if_neg hterms]
          rw [if_neg hcands]
        have hscored : ∀ p ∈ bm25Scored idf docs (tokenize query)
            (setEnum (bm25Candidates docs (tokenize query) sf)),
            p.2 = bm25DocScore idf docs (tokenize query) p.1 ∧ 0 < p.2 := by
          intro p hp
          obtain ⟨i, _, hf⟩ := List.mem_filterMap.mp hp
          by_cases h0 : docLenOf (docs.getD i default) = 0
          · rw [if_pos h0] at hf
            exact absurd hf (by simp)
          · rw [if_neg h0] at hf
            by_cases hs : 0 < bm25DocScore idf docs (tokenize query) i
            · rw [if_pos hs] at hf
              injection hf with h
              subst h
              exact ⟨rfl, hs⟩
            · rw [if_neg hs] at hf
              exact absurd hf (by simp)
        have hmemtake : ∀ p,
            p ∈ ((bm25Scored idf docs (tokenize query)
              (setEnum (bm25Candidates docs (tokenize query) sf))).insertionSort
                scoreGe).take topK →
            p.2 = bm25DocScore idf docs (tokenize query) p.1 ∧ 0 < p.2 := by
          intro p hp
          exact hscored p ((List.mem_insertionSort _).mp ((List.take_sublist _ _).subset hp))
        refine ⟨?_, ?_, ?_, fun h => absurd h hterms, fun h => absurd h hdocsne,
          fun h => hempty (Or.inr (Or.inr (hglue (hnotoverlap h))))⟩
        · intro i hi
          rw [hres] at hi
          obtain ⟨p, hp, he⟩ := List.mem_map.mp hi
          have hfacts := hmemtake p hp
          rw [← he, ← hfacts.1]
          exact hfacts.2
        · rw [hres]
          rw [List.pairwise_map]
          refine List.Pairwise.imp_of_mem (fun ha hb hr => ?_)
            (List.Pairwise.sublist (List.take_sublist _ _) (List.sorted_insertionSort scoreGe _))
          have h1 := hmemtake _ ha
          have h2 := hmemtake _ hb
          rw [← h1.1, ← h2.1]
          exact hr
        · rw [hres]
          simp only [List.length_map]
          exact List.length_take_le _ _

/-- Witness for C4: an empty query yields the empty result on a one-chunk
corpus (the identity enumeration of the candidate set). -/
theorem C4_bm25_witness :
    bm25TopIndices (fun _ => 1) [⟨"fever cough", "a"⟩] "" 5 none (fun l => l) = [] :=
  (C4_bm25 (fun _ => 1) [⟨"fever cough", "a"⟩] "" 5 none (fun l => l)
    (List.Perm.refl _)).2.2.2.1 (by decide)

theorem jaccard_self_ge (ca : List String) (h : ca ≠ []) :
    (3 : ℚ)/4 ≤ jaccardQ ca ca := by
  unfold jaccardQ
  have h1 : ca.filter (fun t => ca.contains t) = ca := by
    rw [List.filter_eq_self]
    intro a ha
    simpa using ha
  have h2 : ca.filter (fun t => !ca.contains t) = [] := by
    rw [List.filter_eq_nil_iff]
    intro a ha
    simpa using ha
  rw [h1, h2]
  have h3 : ca.length ≠ 0 := by
    cases ca with
    | nil => exact absurd rfl h
    | cons x xs => simp
  simp only [List.length_nil, Nat.add_zero]
  have h4 : max 1 ca.length = ca.length := max_eq_right (by omega)
  rw [h4]
  have h5 : (mkRat ca.length ca.length : ℚ) = 1 := by
    rw [Rat.mkRat_eq_div]
    push_cast
    rw [div_self]
    exact_mod_cast h3
  rw [h5]
  norm_num

theorem jaccard_nil_left (pa : List String) : jaccardQ [] pa = 0 := by
  unfold jaccardQ
  simp [Rat.zero_mkRat]

theorem jaccard_nil_right (ca : List String) : jaccardQ ca [] = 0 := by
  unfold jaccardQ
  simp [Rat.zero_mkRat]

theorem tokenSet_empty_of_norm (s : String) (h : normalizeQuestion s = "") :
    tokenSet s = [] := by
  unfold tokenSet
  rw [h]
  rfl

/-- Characterization of `_is_duplicate_question`: a candidate is flagged
exactly when its token-overlap ratio with some previous question reaches
0.75. -/
theorem isDup_iff_aux (cand : String) (prevs : List String) :
    isDuplicateQuestion cand prevs = true ↔
      ∃ p ∈ prevs, (3 : ℚ)/4 ≤ jaccardQ (tokenSet cand) (tokenSet p) := by
  have hmk : (mkRat 3 4 : ℚ) = 3/4 := by norm_num [Rat.mkRat_eq_div]
  unfold isDuplicateQuestion
  by_cases hempty : normalizeQuestion cand = "" ∨ tokenSet cand = []
  · rw [if_pos hempty]
    have hT : tokenSet cand = [] := by
      rcases hempty with h | h
      · exact tokenSet_empty_of_norm cand h
      · exact h
    constructor
    · intro h
      exact absurd h (by simp)
    · rintro ⟨p, _, hle⟩
      rw [hT, jaccard_nil_left] at hle
      norm_num at hle
  · rw [if_neg hempty]
    push_neg at hempty
    obtain ⟨hnorm, htok⟩ := hempty
    rw [List.any_eq_true]
    constructor
    · rintro ⟨p, hp, hb⟩
      refine ⟨p, hp, ?_⟩
      by_cases he : normalizeQuestion cand = normalizeQuestion p
      · have hpt : tokenSet p = tokenSet cand := by
          unfold tokenSet
          rw [he]
        rw [hpt]
        exact jaccard_self_ge _ htok
      · rw [if_neg he] at hb
        by_cases hpt : tokenSet p = []
        · rw [if_pos hpt] at hb
          exact absurd hb (by simp)
        · rw [if_neg hpt] at hb
          have := of_decide_eq_true hb
          rwa [hmk] at this
    · rintro ⟨p, hp, hle⟩
      refine ⟨p, hp, ?_⟩
      by_cases he : normalizeQuestion cand = normalizeQuestion p
      · rw [if_pos he]
      · rw [if_neg he]
        by_cases hpt : tokenSet p = []
        · exfalso
          rw [hpt, jaccard_nil_right] at hle
          norm_num at hle
        · rw [if_neg hpt]
          rw [hmk]
          exact decide_eq_true hle

theorem pickAux_spec (prevs : List String) :
    ∀ (n : Nat) (outputs : List String),
      pickAux prevs n outputs = fallbackGatheringQuestion ∨
      ∃ o ∈ outputs.take n, pickAux prevs n outputs = processCandidate o ∧
        processCandidate o ≠ "" ∧ isDuplicateQuestion (processCandidate o) prevs = false := by
  intro n
  induction n with
  | zero => exact fun _ => Or.inl rfl
  | succ m ih =>
    intro outputs
    cases outputs with
    | nil => exact Or.inl rfl
    | cons o os =>
      by_cases h : processCandidate o ≠ "" ∧ isDuplicateQuestion (processCandidate o) prevs = false
      · right
        refine ⟨o, by simp, ?_, h.1, h.2⟩
        rw [show pickAux prevs (m + 1) (o :: os) =
          if processCandidate o ≠ "" ∧ isDuplicateQuestion (processCandidate o) prevs = false then
            processCandidate o
          else pickAux prevs m os from rfl]
        rw [if_pos h]
      · have hstep : pickAux prevs (m + 1) (o :: os) = pickAux prevs m os := by
          rw [show pickAux prevs (m + 1) (o :: os) =
            if processCandidate o ≠ "" ∧ isDuplicateQuestion (processCandidate o) prevs = false then
              processCandidate o
            else pickAux prevs m os from rfl]
          rw [if_neg h]
        rw [hstep]
        rcases ih os with hfb | ⟨o', ho', heq, hne, hdup⟩
        · exact Or.inl hfb
        · exact Or.inr ⟨o', by simpa using Or.inr ho', heq, hne, hdup⟩

theorem pickAux_fallback (prevs : List String) :
    ∀ (n : Nat) (outputs : List String),
      (∀ o ∈ outputs.take n, processCandidate o = "" ∨
        isDuplicateQuestion (processCandidate o) prevs = true) →
      pickAux prevs n outputs = fallbackGatheringQuestion := by
  intro n
  induction n with
  | zero => exact fun _ _ => rfl
  | succ m ih =>
    intro outputs hall
    cases outputs with
    | nil => rfl
    | cons o os =>
      have ho := hall o (by simp)
      have h : ¬(processCandidate o ≠ "" ∧ isDuplicateQuestion (processCandidate o) prevs = false) := by
        rcases ho with h1 | h1
        · exact fun hc => hc.1 h1
        · exact fun hc => by rw [hc.2] at h1; exact Bool.false_ne_true h1
      have hstep : pickAux prevs (m + 1) (o :: os) = pickAux prevs m os := by
        rw [show pickAux prevs (m + 1) (o :: os) =
          if processCandidate o ≠ "" ∧ isDuplicateQuestion (processCandidate o) prevs = false then
            processCandidate o
          else pickAux prevs m os from rfl]
        rw [if_neg h]
      rw [hstep]
      exact ih os (fun o' ho' => hall o' (by simpa using Or.inr ho'))

/-- Claim C7: the duplicate detector flags a candidate exactly when its
token-overlap ratio with some previously asked question reaches 0.75 over
the normalized token sets; the gathering retry loop emits either one of
the first three processed non-empty non-duplicate model outputs or,
failing that, the fixed fallback question. -/
theorem C7_duplicate_question (cand : String) (prevs outputs : List String) :
    (isDuplicateQuestion cand prevs = true ↔
      ∃ p ∈ prevs, (3 : ℚ)/4 ≤ jaccardQ (tokenSet cand) (tokenSet p))
    ∧ (pickGatheringQuestion outputs prevs = fallbackGatheringQuestion ∨
        ∃ o ∈ outputs.take 3, pickGatheringQuestion outputs prevs = processCandidate o ∧
          processCandidate o ≠ "" ∧ isDuplicateQuestion (processCandidate o) prevs = false)
    ∧ ((∀ o ∈ outputs.take 3, processCandidate o = "" ∨
          isDuplicateQuestion (processCandidate o) prevs = true) →
        pickGatheringQuestion outputs prevs = fallbackGatheringQuestion) :=
  ⟨isDup_iff_aux cand prevs, pickAux_spec prevs 3 outputs, pickAux_fallback prevs 3 outputs⟩

/-- Witness for C7: three failed attempts (a near-duplicate of the
previous question and two empty replies) fall back to the fixed question. -/
theorem C7_duplicate_question_witness :
    pickGatheringQuestion ["What time do your headaches occur??", "", ""]
      ["what time do your headaches occur"] = fallbackGatheringQuestion :=
  (C7_duplicate_question "" ["what time do your headaches occur"]
      ["What time do your headaches occur??", "", ""]).2.2 (by decide)

/-- Counterexample to claim C8: in a turn whose first word-delimited digit
token (500) is out of range, the code leaves age unset, while the claim's
"first integer substring strictly between 0 and 120" is 34. -/
theorem C8_counterexample :
    (updatePatientProfile ⟨none, none⟩
      "I took 500 mg yesterday and I am 34 years old").age = none := by decide

/-- Claim C8 as amended: gender is set from the fixed substring
vocabularies, female terms first, a later turn may overwrite, a turn
matching nothing changes nothing; age is taken from the first
word-delimited run of at most three digits — stored when its value is
strictly between 0 and 120 and ignored otherwise — and is likewise never
cleared by a non-matching turn; the spec's concrete two-turn example
behaves as stated. -/
theorem C8_profile_update (p : PatientProfile) (c : String) :
    ((containsAnyTok (lowerChars c) femaleTerms = true →
        (updatePatientProfile p c).gender = some "female")
    ∧ (containsAnyTok (lowerChars c) femaleTerms = false →
        containsAnyTok (lowerChars c) maleTerms = true →
        (updatePatientProfile p c).gender = some "male")
    ∧ (containsAnyTok (lowerChars c) femaleTerms = false →
        containsAnyTok (lowerChars c) maleTerms = false →
        (updatePatientProfile p c).gender = p.gender)
    ∧ (∀ n, firstAgeMatch (lowerChars c) = some n → 0 < n → n < 120 →
        (updatePatientProfile p c).age = some n)
    ∧ (∀ n, firstAgeMatch (lowerChars c) = some n → ¬(0 < n ∧ n < 120) →
        (updatePatientProfile p c).age = p.age)
    ∧ (firstAgeMatch (lowerChars c) = none → (updatePatientProfile p c).age = p.age))
    ∧ updatePatientProfile (updatePatientProfile ⟨none, none⟩ "I am 34 years old and male")
        "actually female" = ⟨some 34, some "female"⟩ := by
  constructor
  · refine ⟨?_, ?_, ?_, ?_, ?_, ?_⟩ <;> unfold updatePatientProfile
    · intro h
      simp [h]
    · intro h1 h2
      simp [h1, h2]
    · intro h1 h2
      simp [h1, h2]
    · intro n hn h0 h120
      simp only [hn]
      rw [if_pos ⟨h0, h120⟩]
    · intro n hn hrange
      simp only [hn]
      rw [if_neg hrange]
    · intro h
      simp [h]
  · decide

/-- Witness for C8: a later turn containing a female term overwrites the
previously inferred gender. -/
theorem C8_profile_update_witness :
    (updatePatientProfile ⟨some 34, some "male"⟩ "actually female").gender = some "female" :=
  (C8_profile_update ⟨some 34, some "male"⟩ "actually female").1.1 (by decide)

/-- At the top of `_run_differential_decision` the red-flag scan
short-circuits to escalation whenever it triggers. -/
theorem runDiff_escalation (cfg : PipelineConfig) (mem : Memory) (history : String)
    (rawD : Option RawDifferential) (rawSC : Option RawSelfCheck) (fa : Bool)
    (h : detectPreDiagnosisRedFlags history ≠ []) :
    (runDifferentialDecision cfg mem history rawD rawSC fa).1 = Mode.escalation := by
  unfold runDifferentialDecision
  rw [if_pos h]

/-- Claim C9 as amended: the pre-diagnosis keyword red-flag scan is
evaluated on a turn exactly when that turn dispatches a differential
attempt — at the minimum gathering count and again at every final-attempt
turn — and whenever the scan triggers on such a turn the orchestrator
answers in escalation mode. -/
theorem C9_redflag_scan (cfg : PipelineConfig) (mem : Memory) (o : TurnOracle) :
    ((runTurn cfg mem o).2.2 = true ↔
      (o.chunksNonempty = true ∧ mem.waitingTreatmentRiskProfile = false ∧
       mem.waitingRemediesConsent = false ∧ mem.diagnosisComplete = false ∧
       (mem.userTurnCount = cfg.minGathering ∨
        cfg.minGathering + cfg.extraGathering ≤ mem.userTurnCount)))
    ∧ (detectPreDiagnosisRedFlags (getFormattedHistory mem) ≠ [] →
        (runTurn cfg mem o).2.2 = true → (runTurn cfg mem o).1 = Mode.escalation) := by
  unfold runTurn
  split_ifs with h1 h2 h3 h4 h5 h6 h7 h8 h9 <;> constructor
  -- no retrieved chunks
  · simp [h1]
  · intro _ habs
    simp at habs
  -- waiting for the treatment risk profile
  · simp [h2]
  · intro _ habs
    simp at habs
  -- remedies consent, affirmative, risk gate enabled
  · simp [h3]
  · intro _ habs
    simp at habs
  -- remedies consent, affirmative, risk gate disabled or collected
  · simp [h3]
  · intro _ habs
    simp at habs
  -- remedies consent, negative
  · simp [h3]
  · intro _ habs
    simp at habs
  -- diagnosis already complete
  · simp [h6]
  · intro _ habs
    simp at habs
  -- gathering before the minimum count
  · simp only [Bool.not_eq_false] at h1
    simp_all
    omega
  · intro _ habs
    simp at habs
  -- first differential attempt
  · simp only [Bool.not_eq_false] at h1
    simp_all
  · intro hflags _
    exact runDiff_escalation cfg mem (getFormattedHistory mem) o.rawDifferential o.rawSelfCheck
      false hflags
  -- gathering between the attempts
  · simp only [Bool.not_eq_false] at h1
    simp_all
  · intro _ habs
    simp at habs
  -- final differential attempt
  · simp only [Bool.not_eq_false] at h1
    simp_all
  · intro hflags _
    exact runDiff_escalation cfg mem (getFormattedHistory mem) o.rawDifferential o.rawSelfCheck
      true hflags

/-- The oracle turn used in the C9 counterexample trace: an empty user
message, non-empty retrieval, a low-confidence high-uncertainty
differential and a benign self-check. -/
def c9Oracle : TurnOracle :=
  ⟨"", true, some ⟨none, none, some "high", none⟩, some ⟨none, none, none, none, none⟩⟩

/-- A 20-turn session at the default configuration (15 gathering turns
plus 5 extra): the differential runs at turn 15 (uncertain) and again at
turn 20. -/
def c9Trace : List (TurnOracle × String) :=
  List.replicate 20 (c9Oracle, "")

set_option maxRecDepth 100000 in
/-- Counterexample to claim C9: on this session the pre-diagnosis
red-flag scan is evaluated twice — once at the first differential attempt
(turn 15) and again at the final attempt (turn 20) — refuting "evaluated
at most once". -/
theorem C9_counterexample : 1 < sessionScanCount defaultConfig Memory.init c9Trace := by decide

/-- The memory state of the C9 witness: fifteen user turns recorded, the
last one containing red-flag language. -/
def c9Mem : Memory :=
  { Memory.init with userTurnCount := 15, history := [⟨"user", "I have sudden severe pain"⟩] }

/-- Witness for C9: at the minimum gathering count and with red-flag
language in the history, the turn evaluates the scan and escalates. -/
theorem C9_redflag_scan_witness :
    (runTurn defaultConfig c9Mem c9Oracle).1 = Mode.escalation :=
  (C9_redflag_scan defaultConfig c9Mem c9Oracle).2 (by decide) (by decide)

end VedaBot
